import Mathlib

/-!
Verification of `tmux-workspace-cli` (`src/bin/tx.js`) against its
natural-language specification.

The development shallowly embeds the layout data model, the layout-to-script
compiler `generateScript`, the persistence helpers (`getWorkspaces`,
`saveConfig`, `loadConfig`), the command actions (`create`, `load`, `edit`,
`rename`, `delete`) as state transitions over an abstract file-system state,
and the interactive editor loops of `create` and `edit` as step functions on
the in-memory layout.
-/

namespace Tx

/-- Split direction of a pane, the `'horizontal'` / `'vertical'` strings the
editor menus offer (`choices: ['horizontal', 'vertical', ...]`). -/
inductive Split where
  | horizontal
  | vertical
deriving DecidableEq, Repr

/-- Resize dimension, the `'width'` / `'height'` strings the editor menus
offer (`choices: ['width', 'height', ...]`). -/
inductive ResizeType where
  | width
  | height
deriving DecidableEq, Repr

/-- A pane resize rule `{ type, value }` as stored in the JSON descriptor. -/
structure Resize where
  type : ResizeType
  value : Int
deriving DecidableEq, Repr

/-- A pane descriptor. In the source a pane object carries `split`,
`directory`, `command`, `resize`; pane 0 is created as `{ command: '' }` and
never receives a `split`.  `directory = none` models the JavaScript `null` /
absent field; `command = ""` models the falsy empty command. -/
structure Pane where
  split : Option Split := none
  directory : Option String := none
  command : String := ""
  resize : Option Resize := none
deriving DecidableEq, Repr

/-- A workspace layout: `{ name, baseDir, panes }`. -/
structure Config where
  name : String
  baseDir : String
  panes : List Pane
deriving DecidableEq, Repr

/-! ## The layout compiler (`generateScript`, src/bin/tx.js lines 102-148) -/

/-- The fixed script header built first in `generateScript`:
interpreter line, SESSION and BASE_DIR variables, the has-session guard and
the detached-session creation. -/
def scriptHeader (config : Config) : String :=
  "#!/bin/bash\nSESSION=\"" ++ config.name ++ "\"\nBASE_DIR=" ++ config.baseDir
    ++ "\n\ntmux has-session -t $SESSION 2>/dev/null && tmux attach -t $SESSION && exit\n\n"
    ++ "tmux new-session -d -s $SESSION -c $BASE_DIR\n"

/-- The fixed script footer appended last: select pane 0 and attach. -/
def scriptFooter : String :=
  "\n\ntmux select-pane -t 0\ntmux attach -t $SESSION\n"

/-- One split command, as appended for each pane of index `i >= 1`:
`const dir = pane.directory || '$BASE_DIR'` (so a JavaScript-falsy empty
string also falls back to the base-directory variable), then
`split-window -h` when `pane.split === 'horizontal'` and `-v` otherwise. -/
def splitCmd (pane : Pane) : String :=
  let dir : String :=
    match pane.directory with
    | some d => if d = "" then "$BASE_DIR" else d
    | none => "$BASE_DIR"
  match pane.split with
  | some Split.horizontal => "\ntmux split-window -h -c " ++ dir
  | _ => "\ntmux split-window -v -c " ++ dir

/-- The text appended for pane `i` by the resize loop
(`panes.forEach((pane, i) => { if (pane.resize) ... })`): empty when the pane
has no resize rule, otherwise a `select-pane` line followed by the
`resize-pane -x` / `-y` line. -/
def resizeBlock (i : Nat) (pane : Pane) : String :=
  match pane.resize with
  | some r =>
      "\n\ntmux select-pane -t " ++ toString i ++
        (match r.type with
         | ResizeType.width => "\ntmux resize-pane -x " ++ toString r.value
         | ResizeType.height => "\ntmux resize-pane -y " ++ toString r.value)
  | none => ""

/-- The text appended for pane `i` by the command loop
(`if (pane.command) script += send-keys ...`): empty when the command is
empty, otherwise one `send-keys` line. -/
def commandLine (i : Nat) (pane : Pane) : String :=
  if pane.command = "" then ""
  else "\ntmux send-keys -t " ++ toString i ++ " '" ++ pane.command ++ "' C-m"

/-- `generateScript(config)`: builds the script string by appending, in
order, one split command per pane of index 1.., then the resize blocks in
index order, then the command lines in index order, then the footer —
mirroring the three accumulation loops of the source. -/
def generateScript (config : Config) : String :=
  let script := scriptHeader config
  let script := (config.panes.drop 1).foldl (fun s pane => s ++ splitCmd pane) script
  let script := config.panes.enum.foldl (fun s ip => s ++ resizeBlock ip.1 ip.2) script
  let script := config.panes.enum.foldl (fun s ip => s ++ commandLine ip.1 ip.2) script
  script ++ scriptFooter

/-- The list of split commands the compiler emits: one per pane from index 1
to the last, in sequence order. -/
def splitCmds (config : Config) : List String :=
  (config.panes.drop 1).map splitCmd

/-- The list of select-pane/resize-pane pairs the compiler emits: one per
pane whose `resize` field is non-null, in index order. -/
def resizePairs (config : Config) : List String :=
  config.panes.enum.filterMap
    (fun ip => match ip.2.resize with
      | some _ => some (resizeBlock ip.1 ip.2)
      | none => none)

/-- The list of `send-keys` invocations the compiler emits: one per pane
whose `command` field is non-empty, in index order. -/
def sendCmds (config : Config) : List String :=
  config.panes.enum.filterMap
    (fun ip => if ip.2.command = "" then none else some (commandLine ip.1 ip.2))

/-- Concatenation of a list of script fragments, in order. -/
def concatList : List String → String
  | [] => ""
  | s :: rest => s ++ concatList rest

/-- The script as the specification describes it: the fixed skeleton with the
three phases — splits, then resizes, then commands — concatenated in pane
sequence order. -/
def phasedScript (config : Config) : String :=
  scriptHeader config ++ concatList (splitCmds config)
    ++ concatList (resizePairs config) ++ concatList (sendCmds config)
    ++ scriptFooter

/-- The split command as the specification's words describe it: orientation
from `split`, target directory "the pane's own `directory` if set, else the
base-directory variable". -/
def specSplitCmd (pane : Pane) : String :=
  let dir : String :=
    match pane.directory with
    | some d => d
    | none => "$BASE_DIR"
  match pane.split with
  | some Split.horizontal => "\ntmux split-window -h -c " ++ dir
  | _ => "\ntmux split-window -v -c " ++ dir

/-- The split command as the amended specification describes it: target
directory is the pane's own `directory` when set to a non-empty string,
otherwise the base-directory variable. -/
def amendedSplitCmd (pane : Pane) : String :=
  let dir : String :=
    match pane.directory with
    | some d => if d = "" then "$BASE_DIR" else d
    | none => "$BASE_DIR"
  match pane.split with
  | some Split.horizontal => "\ntmux split-window -h -c " ++ dir
  | _ => "\ntmux split-window -v -c " ++ dir

/-! ## Compiler phase decomposition lemmas -/

theorem foldl_append_concatList {α : Type} (f : α → String) (l : List α)
    (init : String) :
    l.foldl (fun s x => s ++ f x) init = init ++ concatList (l.map f) := by
  induction l generalizing init with
  | nil => simp [concatList]
  | cons a t ih =>
      simp only [List.foldl_cons, List.map_cons, concatList, ih,
        String.append_assoc]

theorem empty_append_str (s : String) : "" ++ s = s := by
  apply String.ext
  simp [String.data_append]

theorem resizeBlock_of_none (i : Nat) (p : Pane) (h : p.resize = none) :
    resizeBlock i p = "" := by
  simp [resizeBlock, h]

theorem commandLine_of_empty (i : Nat) (p : Pane) (h : p.command = "") :
    commandLine i p = "" := by
  simp [commandLine, h]

theorem concatList_resizeBlocks (l : List (Nat × Pane)) :
    concatList (l.map (fun ip => resizeBlock ip.1 ip.2))
      = concatList (l.filterMap
          (fun ip => match ip.2.resize with
            | some _ => some (resizeBlock ip.1 ip.2)
            | none => none)) := by
  induction l with
  | nil => rfl
  | cons a t ih =>
      rcases a with ⟨i, p⟩
      rcases h : p.resize with _ | r
      · simp only [List.map_cons, List.filterMap_cons, concatList, h, ih,
          resizeBlock_of_none i p h, empty_append_str]
      · simp only [List.map_cons, List.filterMap_cons, concatList, h, ih]

theorem concatList_commandLines (l : List (Nat × Pane)) :
    concatList (l.map (fun ip => commandLine ip.1 ip.2))
      = concatList (l.filterMap
          (fun ip => if ip.2.command = "" then none
                     else some (commandLine ip.1 ip.2))) := by
  induction l with
  | nil => rfl
  | cons a t ih =>
      rcases a with ⟨i, p⟩
      by_cases h : p.command = ""
      · simp only [List.map_cons, List.filterMap_cons, concatList, h, ih,
          commandLine_of_empty i p h, empty_append_str, if_pos]
      · simp only [List.map_cons, List.filterMap_cons, concatList, h, ih,
          if_neg h]

theorem generateScript_phases (c : Config) :
    generateScript c
      = scriptHeader c ++ concatList (splitCmds c)
          ++ concatList (resizePairs c) ++ concatList (sendCmds c)
          ++ scriptFooter := by
  simp only [generateScript, splitCmds, resizePairs, sendCmds]
  rw [foldl_append_concatList, foldl_append_concatList, foldl_append_concatList,
    concatList_resizeBlocks, concatList_commandLines]

theorem splitCmds_length (c : Config) :
    (splitCmds c).length = c.panes.length - 1 := by
  simp [splitCmds]

theorem resizePairs_enumFrom (n : Nat) (l : List Pane) :
    ((List.enumFrom n l).filterMap
        (fun ip => match ip.2.resize with
          | some _ => some (resizeBlock ip.1 ip.2)
          | none => none)).length
      = (l.filter (fun p => p.resize.isSome)).length := by
  induction l generalizing n with
  | nil => rfl
  | cons p t ih =>
      rcases h : p.resize with _ | r <;>
        simp [List.enumFrom_cons, List.filterMap_cons, List.filter_cons, h, ih]

theorem resizePairs_length (c : Config) :
    (resizePairs c).length
      = (c.panes.filter (fun p => p.resize.isSome)).length := by
  simpa [resizePairs, List.enum] using resizePairs_enumFrom 0 c.panes

theorem sendCmds_enumFrom (n : Nat) (l : List Pane) :
    ((List.enumFrom n l).filterMap
        (fun ip => if ip.2.command = "" then none
                   else some (commandLine ip.1 ip.2))).length
      = (l.filter (fun p => p.command ≠ "")).length := by
  induction l generalizing n with
  | nil => rfl
  | cons p t ih =>
      by_cases h : p.command = "" <;>
        simp [List.enumFrom_cons, List.filterMap_cons, List.filter_cons, h, ih]

theorem sendCmds_length (c : Config) :
    (sendCmds c).length = (c.panes.filter (fun p => p.command ≠ "")).length := by
  simpa [sendCmds, List.enum] using sendCmds_enumFrom 0 c.panes

theorem amendedSplitCmd_eq_splitCmd (p : Pane) : amendedSplitCmd p = splitCmd p := rfl

/-- A pane whose `directory` is present but equal to the empty string. -/
def emptyDirPane : Pane :=
  { split := some Split.vertical, directory := some "", command := "", resize := none }

/-- A two-pane layout whose second pane has an empty-string `directory`. -/
def emptyDirCfg : Config :=
  { name := "w", baseDir := "/b", panes := [{}, emptyDirPane] }

end Tx

namespace Tx

/-- C1: for every Layout with `n` panes, the compiled script consists of the
fixed skeleton plus exactly `n - 1` split commands, exactly one
select-pane/resize-pane pair per pane whose `resize` field is non-null, and
exactly one `send-keys` invocation per pane whose `command` field is
non-empty. -/
theorem C1_compiled_script_counts (c : Config) :
    (splitCmds c).length = c.panes.length - 1 ∧
    (resizePairs c).length = (c.panes.filter (fun p => p.resize.isSome)).length ∧
    (sendCmds c).length = (c.panes.filter (fun p => p.command ≠ "")).length ∧
    generateScript c
      = scriptHeader c ++ concatList (splitCmds c)
          ++ concatList (resizePairs c) ++ concatList (sendCmds c)
          ++ scriptFooter :=
  ⟨splitCmds_length c, resizePairs_length c, sendCmds_length c,
    generateScript_phases c⟩

/-- C7 counterexample: for the layout `emptyDirCfg`, whose pane 1 has
`directory` set (to the empty string), the emitted split command targets the
base-directory variable rather than the pane's own directory, refuting the
claim that the target directory is the pane's own directory whenever it is
set. -/
theorem C7_counterexample :
    (splitCmds emptyDirCfg).get? 0 = some "\ntmux split-window -v -c $BASE_DIR" ∧
    (splitCmds emptyDirCfg).get? 0 ≠ some (specSplitCmd emptyDirPane) := by
  constructor
  · rfl
  · decide

/-- C7 (amended): for every Layout and every pane index `i ≥ 1`, the `i`-th
split command (position `i - 1` of the split phase) has the orientation of
that pane's `split` value and targets the pane's own `directory` when it is
set to a non-empty string, otherwise the base-directory variable. -/
theorem C7_split_commands_amended (c : Config) (i : Nat) (h : 1 ≤ i) :
    (splitCmds c).get? (i - 1) = (c.panes.get? i).map amendedSplitCmd := by
  have hfun : amendedSplitCmd = splitCmd := funext amendedSplitCmd_eq_splitCmd
  have hidx : 1 + (i - 1) = i := by omega
  rw [hfun, splitCmds, List.get?_map, List.get?_drop, hidx]

/-- Witness for C7 (amended) at the concrete layout `emptyDirCfg`, `i = 1`. -/
theorem C7_split_commands_amended_witness :
    (1 : Nat) ≤ 1 ∧
    (splitCmds emptyDirCfg).get? (1 - 1)
      = (emptyDirCfg.panes.get? 1).map amendedSplitCmd :=
  ⟨by decide, C7_split_commands_amended emptyDirCfg 1 (by decide)⟩

/-- C9: compiling a Layout twice yields identical output, and the output is
exactly the fixed skeleton with the three phases — splits, then resizes, then
commands — each in pane sequence order. -/
theorem C9_deterministic_phases (c : Config) :
    generateScript c = generateScript c ∧ generateScript c = phasedScript c :=
  ⟨rfl, generateScript_phases c⟩

end Tx

namespace Tx

/-! ## JSON serialization (`JSON.stringify` in `saveConfig`, `JSON.parse` in
`loadConfig`), modelled at the level of JSON values. -/

/-- A JSON value. -/
inductive Json where
  | null
  | bool (b : Bool)
  | num (n : Int)
  | str (s : String)
  | arr (elems : List Json)
  | obj (fields : List (String × Json))

/-- Field lookup on a JSON object, as JavaScript property access. -/
def Json.getField : Json → String → Option Json
  | Json.obj fields, k => fields.lookup k
  | _, _ => none

/-- The string a `Split` value is stored as. -/
def Split.toName : Split → String
  | Split.horizontal => "horizontal"
  | Split.vertical => "vertical"

/-- Read a stored split string back. -/
def Split.fromName? (s : String) : Option Split :=
  if s = "horizontal" then some Split.horizontal
  else if s = "vertical" then some Split.vertical
  else none

/-- The string a `ResizeType` value is stored as. -/
def ResizeType.toName : ResizeType → String
  | ResizeType.width => "width"
  | ResizeType.height => "height"

/-- Read a stored resize-type string back. -/
def ResizeType.fromName? (s : String) : Option ResizeType :=
  if s = "width" then some ResizeType.width
  else if s = "height" then some ResizeType.height
  else none

/-- JSON form of a resize rule: `{ "type": ..., "value": ... }`. -/
def Resize.toJson (r : Resize) : Json :=
  Json.obj [("type", Json.str r.type.toName), ("value", Json.num r.value)]

/-- Decode a resize rule from its JSON form. -/
def Resize.fromJson? (j : Json) : Option Resize :=
  match j.getField "type", j.getField "value" with
  | some (Json.str t), some (Json.num v) =>
      (ResizeType.fromName? t).map (fun ty => { type := ty, value := v })
  | _, _ => none

/-- JSON form of a pane, with the field order the editor builds the object
in (`{ split, directory, command, resize }`); absent/`null` optional fields
are stored as JSON `null`. -/
def Pane.toJson (p : Pane) : Json :=
  Json.obj
    [ ("split", match p.split with
        | some s => Json.str s.toName
        | none => Json.null)
    , ("directory", match p.directory with
        | some d => Json.str d
        | none => Json.null)
    , ("command", Json.str p.command)
    , ("resize", match p.resize with
        | some r => r.toJson
        | none => Json.null) ]

/-- Decode an optional split field; absent or `null` means no split. -/
def decodeOptSplit : Option Json → Option (Option Split)
  | none => some none
  | some Json.null => some none
  | some (Json.str s) => (Split.fromName? s).map some
  | some _ => none

/-- Decode an optional directory field; absent or `null` means none. -/
def decodeOptDir : Option Json → Option (Option String)
  | none => some none
  | some Json.null => some none
  | some (Json.str d) => some (some d)
  | some _ => none

/-- Decode a command field; an absent field behaves as the empty (falsy)
command, as in the source's `if (pane.command)` tests. -/
def decodeCommand : Option Json → Option String
  | none => some ""
  | some (Json.str s) => some s
  | some _ => none

/-- Decode an optional resize field; absent or `null` means none. -/
def decodeOptResize : Option Json → Option (Option Resize)
  | none => some none
  | some Json.null => some none
  | some j => (Resize.fromJson? j).map some

/-- Decode a pane from its JSON form. -/
def Pane.fromJson? (j : Json) : Option Pane :=
  match j with
  | Json.obj _ => do
      let sp ← decodeOptSplit (j.getField "split")
      let dir ← decodeOptDir (j.getField "directory")
      let cmd ← decodeCommand (j.getField "command")
      let rz ← decodeOptResize (j.getField "resize")
      pure { split := sp, directory := dir, command := cmd, resize := rz }
  | _ => none

/-- Decode a list of panes, failing if any element fails. -/
def decodePanes : List Json → Option (List Pane)
  | [] => some []
  | j :: rest => do
      let p ← Pane.fromJson? j
      let t ← decodePanes rest
      pure (p :: t)

/-- JSON form of a whole layout: `{ name, baseDir, panes }`. -/
def Config.toJson (c : Config) : Json :=
  Json.obj
    [ ("name", Json.str c.name)
    , ("baseDir", Json.str c.baseDir)
    , ("panes", Json.arr (c.panes.map Pane.toJson)) ]

/-- Decode a layout from its JSON form. -/
def Config.fromJson? (j : Json) : Option Config :=
  match j.getField "name", j.getField "baseDir", j.getField "panes" with
  | some (Json.str n), some (Json.str b), some (Json.arr ps) => do
      let panes ← decodePanes ps
      pure { name := n, baseDir := b, panes := panes }
  | _, _, _ => none

theorem pane_json_roundtrip (p : Pane) :
    Pane.fromJson? (Pane.toJson p) = some p := by
  obtain ⟨sp, dir, cmd, rz⟩ := p
  rcases sp with _ | (_ | _) <;> rcases dir with _ | dir <;>
    rcases rz with _ | ⟨(_ | _), v⟩ <;> rfl

theorem decodePanes_map_toJson (l : List Pane) :
    decodePanes (l.map Pane.toJson) = some l := by
  induction l with
  | nil => rfl
  | cons p t ih => simp [decodePanes, pane_json_roundtrip, ih]

theorem config_json_roundtrip (c : Config) :
    Config.fromJson? (Config.toJson c) = some c := by
  obtain ⟨n, b, ps⟩ := c
  have hp := decodePanes_map_toJson ps
  simp only [Config.toJson, Config.fromJson?, Json.getField, List.lookup]
  simp [hp]

/-! ## Persisted state and the command actions

`FsState.scripts` models the `.sh` files of `SCRIPT_DIR` and
`FsState.configs` the `.json` files of `CONFIG_DIR`, both keyed by workspace
name (file `name.sh` / `name.json` ↦ association-list entry).  A stored
descriptor is `ConfigFile.valid c` when its text is the JSON serialization of
layout `c` (see `Config.toJson` and `config_json_roundtrip`), and
`ConfigFile.malformed` when `JSON.parse` rejects its text. -/

/-- A stored JSON descriptor file. -/
inductive ConfigFile where
  | valid (c : Config)
  | malformed
deriving DecidableEq, Repr

/-- The two storage directories, keyed by workspace name. -/
structure FsState where
  scripts : List (String × String)
  configs : List (String × ConfigFile)
deriving DecidableEq, Repr

/-- Remove the entry of key `k` (models deleting file `k.sh` / `k.json`). -/
def removeEntry {α : Type} (l : List (String × α)) (k : String) :
    List (String × α) :=
  l.filter (fun e => e.1 != k)

/-- Write the file of key `k` (create or overwrite). -/
def setEntry {α : Type} (l : List (String × α)) (k : String) (v : α) :
    List (String × α) :=
  (k, v) :: removeEntry l k

theorem removeEntry_cons {α : Type} (e : String × α) (t : List (String × α))
    (k : String) :
    removeEntry (e :: t) k
      = if e.1 = k then removeEntry t k else e :: removeEntry t k := by
  by_cases he : e.1 = k <;> simp [removeEntry, List.filter_cons, he]

theorem lookup_removeEntry_self {α : Type} (l : List (String × α))
    (k : String) : (removeEntry l k).lookup k = none := by
  induction l with
  | nil => rfl
  | cons e t ih =>
      rw [removeEntry_cons]
      by_cases he : e.1 = k
      · rw [if_pos he]
        exact ih
      · rw [if_neg he, List.lookup,
          beq_eq_false_iff_ne.mpr (fun hk => he hk.symm)]
        exact ih

theorem lookup_removeEntry_ne {α : Type} (l : List (String × α)) (k k' : String)
    (h : k' ≠ k) : (removeEntry l k).lookup k' = l.lookup k' := by
  induction l with
  | nil => rfl
  | cons e t ih =>
      rw [removeEntry_cons]
      by_cases he : e.1 = k
      · have hb : (k' == e.1) = false := by
          apply beq_eq_false_iff_ne.mpr
          rw [he]
          exact h
        rw [if_pos he, ih, List.lookup, hb]
      · rw [if_neg he, List.lookup, List.lookup]
        by_cases hke : k' = e.1
        · rw [beq_iff_eq.mpr hke]
        · rw [beq_eq_false_iff_ne.mpr hke]
          exact ih

theorem lookup_setEntry_self {α : Type} (l : List (String × α)) (k : String)
    (v : α) : (setEntry l k v).lookup k = some v := by
  rw [setEntry, List.lookup, beq_self_eq_true]

theorem lookup_setEntry_ne {α : Type} (l : List (String × α)) (k k' : String)
    (v : α) (h : k' ≠ k) : (setEntry l k v).lookup k' = l.lookup k' := by
  rw [setEntry, List.lookup, beq_eq_false_iff_ne.mpr h]
  exact lookup_removeEntry_ne l k k' h

theorem lookup_some_mem_keys {α : Type} {l : List (String × α)} {k : String}
    {v : α} (h : l.lookup k = some v) : k ∈ l.map Prod.fst := by
  induction l with
  | nil => simp [List.lookup] at h
  | cons e t ih =>
      by_cases he : k = e.1
      · simp [he]
      · rw [List.lookup, beq_eq_false_iff_ne.mpr he] at h
        simpa using Or.inr (ih h)

/-- `getWorkspaces()` (src/bin/tx.js lines 71-78): the workspace names are
exactly the names of the `.sh` files in `SCRIPT_DIR`. -/
def getWorkspaces (fs : FsState) : List String :=
  fs.scripts.map Prod.fst

/-- `saveConfig(name, config)` (lines 81-89): writes the JSON serialization
of `config` to `CONFIG_DIR/name.json`. -/
def saveConfig (fs : FsState) (name : String) (config : Config) : FsState :=
  { fs with configs := setEntry fs.configs name (ConfigFile.valid config) }

/-- `loadConfig(name)` (lines 92-99): reads and parses
`CONFIG_DIR/name.json`; a missing file or a file `JSON.parse` rejects both
yield `null` through the `catch`. -/
def loadConfig (fs : FsState) (name : String) : Option Config :=
  match fs.configs.lookup name with
  | some (ConfigFile.valid c) => some c
  | _ => none

/-- The observable outcome a command action reports. -/
inductive Outcome where
  | cancelled
  | launched
  | notFound
  | conflict
  | noWorkspaces
  | deleted
  | deleteFailed
  | renamed
  | renameFailed
  | editing
deriving DecidableEq, Repr

/-- The persistence step of the `create` action after the editor loop exits
through `✅ Create workspace` (lines 484-488): write
`SCRIPT_DIR/<name>.sh` with the compiled script, then `saveConfig`.  The
action performs no uniqueness check on the name. -/
def createFinalize (fs : FsState) (config : Config) : FsState :=
  let fs1 := { fs with
    scripts := setEntry fs.scripts config.name (generateScript config) }
  saveConfig fs1 config.name config

/-- The `load` action (lines 498-507): existence is decided solely by
`existsSync` on the `.sh` file; missing → message + `process.exit(1)`,
present → spawn the script. -/
def loadAction (fs : FsState) (workspace : String) : Nat × Outcome :=
  match fs.scripts.lookup workspace with
  | none => (1, Outcome.notFound)
  | some _ => (0, Outcome.launched)

/-- The entry gate of the `edit` action (lines 589-595): `loadConfig` null →
NotFound + `process.exit(1)`, otherwise the editing loop starts. -/
def editEntry (fs : FsState) (workspace : String) : Nat × Outcome :=
  match loadConfig fs workspace with
  | none => (1, Outcome.notFound)
  | some _ => (0, Outcome.editing)

/-- The `delete` action (lines 996-1022): confirm, then `unlink` the `.sh`
file and best-effort `unlink` the `.json` file.  When the `.sh` file is
missing the first `unlink` rejects, the `catch` prints `Failed to delete`
(so the `.json` unlink is never reached) and the process falls through with
exit code 0 — `process.exit` is never called on this path. -/
def deleteAction (fs : FsState) (workspace : String) (confirmed : Bool) :
    FsState × Nat × Outcome :=
  if !confirmed then (fs, 0, Outcome.cancelled)
  else
    match fs.scripts.lookup workspace with
    | none => (fs, 0, Outcome.deleteFailed)
    | some _ =>
        let fs1 := { fs with scripts := removeEntry fs.scripts workspace }
        let fs2 := { fs1 with configs := removeEntry fs1.configs workspace }
        (fs2, 0, Outcome.deleted)

/-- The `rename` action with both arguments supplied (lines 903-993):
empty workspace list → early return; `loadConfig` null → NotFound +
`process.exit(1)`; target `.sh` exists → Conflict + `process.exit(1)`;
unconfirmed → cancelled.  Otherwise: set `config.name = newname`, rename the
`.sh` file (a missing source file rejects and is caught as a reported
failure), best-effort rename the `.json` file, regenerate and write the new
`.sh`, and `saveConfig` under the new name. -/
def renameAction (fs : FsState) (workspace newname : String)
    (confirmed : Bool) : FsState × Nat × Outcome :=
  if getWorkspaces fs = [] then (fs, 0, Outcome.noWorkspaces)
  else
    match loadConfig fs workspace with
    | none => (fs, 1, Outcome.notFound)
    | some config =>
        if (fs.scripts.lookup newname).isSome then (fs, 1, Outcome.conflict)
        else if !confirmed then (fs, 0, Outcome.cancelled)
        else
          match fs.scripts.lookup workspace with
          | none => (fs, 0, Outcome.renameFailed)
          | some content =>
              let config' := { config with name := newname }
              let fs1 := { fs with
                scripts := setEntry (removeEntry fs.scripts workspace)
                  newname content }
              let fs2 := { fs1 with configs :=
                match fs1.configs.lookup workspace with
                | some file =>
                    setEntry (removeEntry fs1.configs workspace) newname file
                | none => fs1.configs }
              let fs3 := { fs2 with
                scripts := setEntry fs2.scripts newname
                  (generateScript config') }
              let fs4 := saveConfig fs3 newname config'
              (fs4, 0, Outcome.renamed)

theorem mem_keys_lookup_isSome {α : Type} {l : List (String × α)} {k : String}
    (h : k ∈ l.map Prod.fst) : (l.lookup k).isSome = true := by
  induction l with
  | nil => simp at h
  | cons e t ih =>
      rw [List.lookup]
      by_cases hke : k = e.1
      · rw [beq_iff_eq.mpr hke]
        rfl
      · rw [beq_eq_false_iff_ne.mpr hke]
        apply ih
        rw [List.map_cons] at h
        rcases List.mem_cons.mp h with h1 | h2
        · exact absurd h1 hke
        · exact h2

theorem lookup_none_not_mem_keys {α : Type} {l : List (String × α)}
    {k : String} (h : l.lookup k = none) : k ∉ l.map Prod.fst := by
  intro hmem
  have hs := mem_keys_lookup_isSome hmem
  rw [h] at hs
  simp at hs

/-! ## Concrete fixtures -/

/-- A one-pane layout named `dev`. -/
def cfgDev : Config := { name := "dev", baseDir := "/proj", panes := [{}] }

/-- Storage already holding a script file for the name `dev`. -/
def fsDev : FsState := { scripts := [("dev", "old")], configs := [] }

/-- Empty storage. -/
def emptyFs : FsState := { scripts := [], configs := [] }

/-- A one-pane layout named `a`. -/
def cfgA : Config := { name := "a", baseDir := "/b", panes := [{}] }

/-- Storage holding workspace `a` with both its files. -/
def fsA : FsState :=
  { scripts := [("a", "s")], configs := [("a", ConfigFile.valid cfgA)] }

/-- Storage where `a.sh` exists but `a.json` is unparseable. -/
def fsMalformed : FsState :=
  { scripts := [("a", "s")], configs := [("a", ConfigFile.malformed)] }

end Tx

namespace Tx

/-- C2 counterexample: with a script file already stored under the name
`dev`, finishing `create` for a layout named `dev` is not rejected — it
writes the script file and creates the JSON descriptor (which did not exist
before), refuting "rejected before any file is written". -/
theorem C2_counterexample :
    (fsDev.scripts.lookup "dev").isSome = true ∧
    fsDev.configs.lookup "dev" = none ∧
    (createFinalize fsDev cfgDev).configs.lookup "dev"
      = some (ConfigFile.valid cfgDev) ∧
    (createFinalize fsDev cfgDev).scripts.lookup "dev"
      = some (generateScript cfgDev) := by
  refine ⟨rfl, rfl, rfl, ?_⟩
  exact lookup_setEntry_self _ _ _

/-- C2 (amended): `create` with a name equal to an existing workspace is not
rejected: the script file and the JSON descriptor for that name are written,
overwriting the stored workspace. -/
theorem C2_create_overwrites (fs : FsState) (c : Config)
    (h : (fs.scripts.lookup c.name).isSome = true) :
    (createFinalize fs c).scripts.lookup c.name = some (generateScript c) ∧
    loadConfig (createFinalize fs c) c.name = some c := by
  constructor
  · exact lookup_setEntry_self _ _ _
  · simp only [createFinalize, saveConfig, loadConfig]
    rw [lookup_setEntry_self]

/-- Witness for C2 (amended) at the stored name `dev`. -/
theorem C2_create_overwrites_witness :
    (fsDev.scripts.lookup cfgDev.name).isSome = true ∧
    ((createFinalize fsDev cfgDev).scripts.lookup cfgDev.name
        = some (generateScript cfgDev) ∧
      loadConfig (createFinalize fsDev cfgDev) cfgDev.name = some cfgDev) :=
  ⟨rfl, C2_create_overwrites fsDev cfgDev rfl⟩

/-- C3 counterexample: confirmed `delete` of the non-existent name `ghost`
leaves storage unchanged (that part of the claim holds) but exits with code
0 and reports a generic deletion failure, refuting the claimed non-zero exit
code and NotFound report. -/
theorem C3_counterexample :
    (deleteAction emptyFs "ghost" true).2.1 = 0 ∧
    (deleteAction emptyFs "ghost" true).1 = emptyFs ∧
    (deleteAction emptyFs "ghost" true).2.2 = Outcome.deleteFailed :=
  ⟨rfl, rfl, rfl⟩

/-- C3 (amended): confirmed `delete` of a name with no stored script file
performs no file-system mutation, reports a deletion failure (the caught
`unlink` error, not the NotFound taxonomy), and exits with code 0. -/
theorem C3_delete_missing (fs : FsState) (w : String)
    (h : fs.scripts.lookup w = none) :
    deleteAction fs w true = (fs, 0, Outcome.deleteFailed) := by
  simp [deleteAction, h]

/-- Witness for C3 (amended) on empty storage. -/
theorem C3_delete_missing_witness :
    emptyFs.scripts.lookup "ghost" = none ∧
    deleteAction emptyFs "ghost" true = (emptyFs, 0, Outcome.deleteFailed) :=
  ⟨rfl, C3_delete_missing emptyFs "ghost" rfl⟩

/-- C4: after a successful rename from `w` to `n`, the old name no longer
exists in storage, the new name exists, and loading the new name yields a
layout whose `name` field equals the new name. -/
theorem C4_rename_postcondition (fs : FsState) (w n : String) (cfg : Config)
    (s : String) (hload : loadConfig fs w = some cfg)
    (hnew : fs.scripts.lookup n = none)
    (hold : fs.scripts.lookup w = some s) :
    (renameAction fs w n true).2.2 = Outcome.renamed ∧
    w ∉ getWorkspaces (renameAction fs w n true).1 ∧
    n ∈ getWorkspaces (renameAction fs w n true).1 ∧
    loadConfig (renameAction fs w n true).1 n
      = some { cfg with name := n } ∧
    ({ cfg with name := n } : Config).name = n := by
  have hwn : w ≠ n := by
    intro h
    rw [h, hnew] at hold
    exact Option.noConfusion hold
  have hne : ¬ getWorkspaces fs = [] := by
    intro hgw
    have hmem := lookup_some_mem_keys hold
    rw [show fs.scripts.map Prod.fst = getWorkspaces fs from rfl, hgw] at hmem
    exact absurd hmem (List.not_mem_nil w)
  have hres : renameAction fs w n true
      = ({ scripts := setEntry
              (setEntry (removeEntry fs.scripts w) n s) n
              (generateScript { cfg with name := n }),
           configs := setEntry
              (match (removeEntry fs.scripts w, fs.configs).2.lookup w with
               | some file =>
                   setEntry (removeEntry fs.configs w) n file
               | none => fs.configs) n
              (ConfigFile.valid { cfg with name := n }) }, 0,
          Outcome.renamed) := by
    rw [renameAction, if_neg hne, hload]
    simp only [hnew, Option.isSome_none, Bool.false_eq_true, if_false, hold,
      Bool.not_true, saveConfig]
  rw [hres]
  refine ⟨rfl, ?_, ?_, ?_, rfl⟩
  · apply lookup_none_not_mem_keys
    rw [lookup_setEntry_ne _ _ _ _ hwn, lookup_setEntry_ne _ _ _ _ hwn,
      lookup_removeEntry_self]
  · exact lookup_some_mem_keys (lookup_setEntry_self _ _ _)
  · rw [loadConfig]
    rw [lookup_setEntry_self]

/-- Witness for C4 at the concrete rename of workspace `a` to `b`. -/
theorem C4_rename_postcondition_witness :
    loadConfig fsA "a" = some cfgA ∧
    fsA.scripts.lookup "b" = none ∧
    fsA.scripts.lookup "a" = some "s" ∧
    ((renameAction fsA "a" "b" true).2.2 = Outcome.renamed ∧
      "a" ∉ getWorkspaces (renameAction fsA "a" "b" true).1 ∧
      "b" ∈ getWorkspaces (renameAction fsA "a" "b" true).1 ∧
      loadConfig (renameAction fsA "a" "b" true).1 "b"
        = some { cfgA with name := "b" } ∧
      ({ cfgA with name := "b" } : Config).name = "b") :=
  ⟨rfl, rfl, rfl, C4_rename_postcondition fsA "a" "b" cfgA "s" rfl rfl rfl⟩

/-- C8: saving a layout under a name and loading that name yields a layout
equal to the original in all fields; in particular the JSON serialization
written by save decodes to exactly the original layout. -/
theorem C8_save_load_roundtrip (fs : FsState) (name : String) (L : Config) :
    loadConfig (saveConfig fs name L) name = some L ∧
    Config.fromJson? (Config.toJson L) = some L := by
  constructor
  · simp only [saveConfig, loadConfig]
    rw [lookup_setEntry_self]
  · exact config_json_roundtrip L

/-- C10: for a name whose script file exists but whose JSON descriptor is
absent or unparseable, `list` shows the workspace and `load` runs it, while
`edit` and `rename` report NotFound with exit code 1. -/
theorem C10_existence_criteria (fs : FsState) (w newname : String)
    (hscript : (fs.scripts.lookup w).isSome = true)
    (hcfg : loadConfig fs w = none) :
    w ∈ getWorkspaces fs ∧
    loadAction fs w = (0, Outcome.launched) ∧
    editEntry fs w = (1, Outcome.notFound) ∧
    renameAction fs w newname true = (fs, 1, Outcome.notFound) := by
  obtain ⟨v, hv⟩ := Option.isSome_iff_exists.mp hscript
  have hne : ¬ getWorkspaces fs = [] := by
    intro hgw
    have hmem := lookup_some_mem_keys hv
    rw [show fs.scripts.map Prod.fst = getWorkspaces fs from rfl, hgw] at hmem
    exact absurd hmem (List.not_mem_nil w)
  refine ⟨lookup_some_mem_keys hv, ?_, ?_, ?_⟩
  · rw [loadAction, hv]
  · rw [editEntry, hcfg]
  · rw [renameAction, if_neg hne, hcfg]

/-- Witness for C10: storage where `a.sh` exists and `a.json` is
unparseable. -/
theorem C10_existence_criteria_witness :
    (fsMalformed.scripts.lookup "a").isSome = true ∧
    loadConfig fsMalformed "a" = none ∧
    ("a" ∈ getWorkspaces fsMalformed ∧
      loadAction fsMalformed "a" = (0, Outcome.launched) ∧
      editEntry fsMalformed "a" = (1, Outcome.notFound) ∧
      renameAction fsMalformed "a" "b" true
        = (fsMalformed, 1, Outcome.notFound)) :=
  ⟨rfl, rfl, C10_existence_criteria fsMalformed "a" "b" rfl rfl⟩

end Tx

namespace Tx

/-! ## The interactive editor loops (`create`, lines 154-492, and `edit`,
lines 589-896), as step functions on the in-memory layout.

Each constructor of `CreateAction` / `EditAction` is one round of the menu
loop together with the user inputs that round consumes.  Guards in the step
functions model which menu entries are offered: `remove-pane` appears in the
`create` menu only when `config.panes.length > 1` (line 226), `edit-pane-i`
entries exist only for current indices, the pane-0 field menu offers only
Command and Resize (lines 292-298 and 758-764), and the `edit` flow's pane
removal list excludes index 0 (line 865). -/

/-- The kind of an inquirer prompt (`type:` field). -/
inductive PromptKind where
  | list
  | input
  | confirm
  | number
deriving DecidableEq, Repr

/-- One field change inside the per-pane editing sub-loop. -/
inductive PaneEdit where
  | setSplit (s : Split)
  | setDirectory (d : String)
  | setCommand (c : String)
  | setResize (r : Option Resize)
deriving DecidableEq, Repr

/-- Apply one field change to pane `i`.  For pane 0 the field menu offers
only Command and Resize, so split/directory selections cannot occur at index
0; those cases are unreachable and modeled as the identity.  A directory
entered as the empty string is stored as `null`
(`pane.directory = result.directory || null`). -/
def applyPaneEdit (i : Nat) (p : Pane) : PaneEdit → Pane
  | PaneEdit.setSplit s => if i = 0 then p else { p with split := some s }
  | PaneEdit.setDirectory d =>
      if i = 0 then p
      else { p with directory := if d = "" then none else some d }
  | PaneEdit.setCommand c => { p with command := c }
  | PaneEdit.setResize r => { p with resize := r }

/-- The inputs collected by the Add-pane flow: split direction, directory,
command, the `Custom size?` confirm, and (when confirmed) the resize choice,
where `none` models `← Skip`. -/
structure NewPaneInput where
  split : Split
  directory : String
  command : String
  needResize : Bool
  resizeChoice : Option Resize
deriving DecidableEq, Repr

/-- The pane object pushed by Add-pane (lines 462-467 and 721-726). -/
def mkNewPane (np : NewPaneInput) : Pane :=
  { split := some np.split
  , directory := if np.directory = "" then none else some np.directory
  , command := np.command
  , resize := if np.needResize then np.resizeChoice else none }

/-- One round of the `create` menu loop.  `finish` (`✅ Create workspace`)
and `cancel` leave the loop without changing the layout. -/
inductive CreateAction where
  | editName (s : String)
  | editBaseDir (s : String)
  | editPane (i : Nat) (es : List PaneEdit)
  | addPane (np : NewPaneInput)
  | removePane
  | finish
  | cancel
deriving DecidableEq, Repr

/-- The `create` flow's transition function.  `removePane`
(`➖ Remove last pane`) pops the last pane immediately — the branch at lines
470-472 is `config.panes.pop()` with no further prompt — and is offered only
when more than one pane exists. -/
def createStep (c : Config) : CreateAction → Config
  | CreateAction.editName s => { c with name := s }
  | CreateAction.editBaseDir s => { c with baseDir := s }
  | CreateAction.editPane i es =>
      if h : i < c.panes.length then
        let p := es.foldl (applyPaneEdit i) (c.panes.get ⟨i, h⟩)
        { c with panes := c.panes.set i p }
      else c
  | CreateAction.addPane np => { c with panes := c.panes ++ [mkNewPane np] }
  | CreateAction.removePane =>
      if 1 < c.panes.length then { c with panes := c.panes.dropLast } else c
  | CreateAction.finish => c
  | CreateAction.cancel => c

/-- Prompts issued by one pane-field change in the `create` flow's sub-loop:
the resize path shows the Enable/Disable list, then (when enabling) the
width/height list and the size number input. -/
def paneEditPrompts : PaneEdit → List PromptKind
  | PaneEdit.setSplit _ => [PromptKind.list]
  | PaneEdit.setDirectory _ => [PromptKind.input]
  | PaneEdit.setCommand _ => [PromptKind.input]
  | PaneEdit.setResize (some _) =>
      [PromptKind.list, PromptKind.list, PromptKind.number]
  | PaneEdit.setResize none => [PromptKind.list]

/-- The inquirer prompts the `create` flow issues while handling one
selected menu action (after the menu's own list prompt).  The `removePane`
branch (lines 470-472) issues no prompt at all — in particular no
confirmation. -/
def createActionPrompts : CreateAction → List PromptKind
  | CreateAction.editName _ => [PromptKind.input]
  | CreateAction.editBaseDir _ => [PromptKind.input]
  | CreateAction.editPane _ es =>
      (es.map (fun e => PromptKind.list :: paneEditPrompts e)).join
        ++ [PromptKind.list]
  | CreateAction.addPane np =>
      [PromptKind.list, PromptKind.input, PromptKind.input, PromptKind.confirm]
        ++ (if np.needResize then
              PromptKind.list ::
                (match np.resizeChoice with
                 | some _ => [PromptKind.number]
                 | none => [])
            else [])
  | CreateAction.removePane => []
  | CreateAction.finish => []
  | CreateAction.cancel => []

/-- One round of the `edit` menu loop (the layout-changing actions;
`Save and exit`, `Edit script directly` and `Cancel` do not change the
in-memory layout). -/
inductive EditAction where
  | setBaseDir (s : String)
  | addPane (np : NewPaneInput)
  | editPane (i : Nat) (es : List PaneEdit)
  | removePane (i : Nat) (confirmed : Bool)
deriving DecidableEq, Repr

/-- The `edit` flow's transition function.  `removePane` refuses when only
one pane exists (`Cannot remove the last pane`, lines 857-860), offers only
non-zero existing indices (line 865), and splices the pane out only after
the `Remove pane i?` confirm is answered yes (lines 881-893). -/
def editStep (c : Config) : EditAction → Config
  | EditAction.setBaseDir s => { c with baseDir := s }
  | EditAction.addPane np => { c with panes := c.panes ++ [mkNewPane np] }
  | EditAction.editPane i es =>
      if h : i < c.panes.length then
        let p := es.foldl (applyPaneEdit i) (c.panes.get ⟨i, h⟩)
        { c with panes := c.panes.set i p }
      else c
  | EditAction.removePane i confirmed =>
      if c.panes.length = 1 then c
      else if i = 0 ∨ c.panes.length ≤ i then c
      else if confirmed then { c with panes := c.panes.eraseIdx i } else c

/-- Prompts issued by one pane-field change in the `edit` flow's sub-loop:
its resize path is a single width/height/Disable list followed (when
enabling) by the size number input. -/
def editPaneEditPrompts : PaneEdit → List PromptKind
  | PaneEdit.setSplit _ => [PromptKind.list]
  | PaneEdit.setDirectory _ => [PromptKind.input]
  | PaneEdit.setCommand _ => [PromptKind.input]
  | PaneEdit.setResize (some _) => [PromptKind.list, PromptKind.number]
  | PaneEdit.setResize none => [PromptKind.list]

/-- The inquirer prompts the `edit` flow issues while handling one selected
menu action.  Pane removal shows the pane-selection list and then the
explicit `Remove pane i?` confirm — unless only one pane exists, in which
case the error is printed before any prompt. -/
def editActionPrompts (c : Config) : EditAction → List PromptKind
  | EditAction.setBaseDir _ => [PromptKind.input]
  | EditAction.addPane np =>
      [PromptKind.list, PromptKind.input, PromptKind.input, PromptKind.confirm]
        ++ (if np.needResize then
              PromptKind.list ::
                (match np.resizeChoice with
                 | some _ => [PromptKind.number]
                 | none => [])
            else [])
  | EditAction.editPane _ es =>
      PromptKind.list ::
        (es.map (fun e => PromptKind.list :: editPaneEditPrompts e)).join
        ++ [PromptKind.list]
  | EditAction.removePane _ _ =>
      if c.panes.length = 1 then []
      else [PromptKind.list, PromptKind.confirm]

/-- A two-pane layout. -/
def cfgTwoPanes : Config :=
  { name := "w", baseDir := "/b"
  , panes := [{}, { split := some Split.vertical }] }

/-! ## Editor invariants -/

theorem head?_set_succ {α : Type} (l : List α) (j : Nat) (v : α) :
    (l.set (j + 1) v).head? = l.head? := by
  cases l <;> rfl

theorem head?_append_ne_nil {α : Type} (l l2 : List α) (h : l ≠ []) :
    (l ++ l2).head? = l.head? := by
  cases l with
  | nil => exact absurd rfl h
  | cons x t => rfl

theorem head?_dropLast_of_lt {α : Type} (l : List α) (h : 1 < l.length) :
    l.dropLast.head? = l.head? := by
  match l with
  | [] => simp at h
  | [x] => simp at h
  | x :: y :: t => rfl

theorem head?_eraseIdx_succ {α : Type} (l : List α) (j : Nat) :
    (l.eraseIdx (j + 1)).head? = l.head? := by
  cases l <;> rfl

theorem foldl_applyPaneEdit_zero_split (es : List PaneEdit) (p : Pane) :
    (es.foldl (applyPaneEdit 0) p).split = p.split := by
  induction es generalizing p with
  | nil => rfl
  | cons e t ih =>
      rw [List.foldl_cons, ih]
      cases e with
      | setSplit s => rfl
      | setDirectory d => rfl
      | setCommand c => rfl
      | setResize r => rfl

theorem head?_split_set_foldl (ps : List Pane) (i : Nat) (es : List PaneEdit)
    (hi : i < ps.length) :
    ((ps.set i (es.foldl (applyPaneEdit i) (ps.get ⟨i, hi⟩))).head?).map
        Pane.split
      = (ps.head?).map Pane.split := by
  cases i with
  | zero =>
      cases ps with
      | nil => simp at hi
      | cons p t => simp [foldl_applyPaneEdit_zero_split]
  | succ j => rw [head?_set_succ]

theorem ne_nil_of_head?_split {l l' : List Pane} (h : l ≠ [])
    (he : (l'.head?).map Pane.split = (l.head?).map Pane.split) :
    l' ≠ [] := by
  cases l with
  | nil => exact absurd rfl h
  | cons p t =>
      cases l' with
      | nil => simp at he
      | cons q s => simp

theorem createStep_head_split (c : Config) (a : CreateAction)
    (h : c.panes ≠ []) :
    ((createStep c a).panes.head?).map Pane.split
      = (c.panes.head?).map Pane.split := by
  cases a with
  | editName s => rfl
  | editBaseDir s => rfl
  | editPane i es =>
      simp only [createStep]
      by_cases hi : i < c.panes.length
      · rw [dif_pos hi]
        exact head?_split_set_foldl c.panes i es hi
      · rw [dif_neg hi]
  | addPane np =>
      simp only [createStep]
      rw [head?_append_ne_nil _ _ h]
  | removePane =>
      simp only [createStep]
      by_cases hl : 1 < c.panes.length
      · rw [if_pos hl, head?_dropLast_of_lt _ hl]
      · rw [if_neg hl]
  | finish => rfl
  | cancel => rfl

theorem editStep_head_split (c : Config) (a : EditAction)
    (h : c.panes ≠ []) :
    ((editStep c a).panes.head?).map Pane.split
      = (c.panes.head?).map Pane.split := by
  cases a with
  | setBaseDir s => rfl
  | addPane np =>
      simp only [editStep]
      rw [head?_append_ne_nil _ _ h]
  | editPane i es =>
      simp only [editStep]
      by_cases hi : i < c.panes.length
      · rw [dif_pos hi]
        exact head?_split_set_foldl c.panes i es hi
      · rw [dif_neg hi]
  | removePane i confirmed =>
      simp only [editStep]
      by_cases h1 : c.panes.length = 1
      · rw [if_pos h1]
      · rw [if_neg h1]
        by_cases h2 : i = 0 ∨ c.panes.length ≤ i
        · rw [if_pos h2]
        · rw [if_neg h2]
          cases confirmed with
          | false => rw [if_neg Bool.false_ne_true]
          | true =>
              rw [if_pos rfl]
              have hi0 : i ≠ 0 := fun h0 => h2 (Or.inl h0)
              obtain ⟨j, rfl⟩ := Nat.exists_eq_succ_of_ne_zero hi0
              exact congrArg (Option.map Pane.split)
                (head?_eraseIdx_succ c.panes j)

end Tx

namespace Tx

/-- C5 counterexample: in the `create` flow, with a two-pane layout the
`removePane` action removes a pane while the handling of that action issues
no prompt at all — in particular no confirmation step — refuting the claim
that in every editor flow a pane is removed only after an explicit user
confirmation. -/
theorem C5_counterexample :
    cfgTwoPanes.panes.length = 2 ∧
    (createStep cfgTwoPanes CreateAction.removePane).panes.length = 1 ∧
    createActionPrompts CreateAction.removePane = [] :=
  ⟨rfl, rfl, rfl⟩

/-- C5 (amended): in both flows a pane is removed only at a non-zero index.
The `edit` flow additionally removes only after the explicit `Remove pane?`
confirmation; the `create` flow's remove-last-pane action takes effect
immediately, issuing no confirmation prompt. -/
theorem C5_pane_removal (c : Config) (i : Nat) (confirmed : Bool) :
    (1 < c.panes.length →
      (createStep c CreateAction.removePane).panes = c.panes.dropLast ∧
      c.panes.length - 1 ≠ 0 ∧
      createActionPrompts CreateAction.removePane = []) ∧
    ((editStep c (EditAction.removePane i confirmed)).panes ≠ c.panes →
      confirmed = true ∧ i ≠ 0 ∧
      (editStep c (EditAction.removePane i confirmed)).panes
        = c.panes.eraseIdx i ∧
      PromptKind.confirm
        ∈ editActionPrompts c (EditAction.removePane i confirmed)) := by
  constructor
  · intro hl
    refine ⟨?_, by omega, rfl⟩
    simp only [createStep, if_pos hl]
  · intro hne
    by_cases h1 : c.panes.length = 1
    · exact absurd (by simp only [editStep, if_pos h1]) hne
    · by_cases h2 : i = 0 ∨ c.panes.length ≤ i
      · exact absurd (by simp only [editStep, if_neg h1, if_pos h2]) hne
      · cases confirmed with
        | false =>
            exact absurd (by simp [editStep, h1, h2]) hne
        | true =>
            refine ⟨rfl, fun h0 => h2 (Or.inl h0), ?_, ?_⟩
            · simp [editStep, h1, h2]
            · simp only [editActionPrompts, if_neg h1]
              simp

/-- Witness for C5 (amended): both removal paths exercised on the two-pane
layout. -/
theorem C5_pane_removal_witness :
    (1 < cfgTwoPanes.panes.length ∧
      ((createStep cfgTwoPanes CreateAction.removePane).panes
          = cfgTwoPanes.panes.dropLast ∧
        cfgTwoPanes.panes.length - 1 ≠ 0 ∧
        createActionPrompts CreateAction.removePane = [])) ∧
    ((editStep cfgTwoPanes (EditAction.removePane 1 true)).panes
        ≠ cfgTwoPanes.panes ∧
      (true = true ∧ (1 : Nat) ≠ 0 ∧
        (editStep cfgTwoPanes (EditAction.removePane 1 true)).panes
          = cfgTwoPanes.panes.eraseIdx 1 ∧
        PromptKind.confirm
          ∈ editActionPrompts cfgTwoPanes (EditAction.removePane 1 true))) :=
  ⟨⟨by decide, (C5_pane_removal cfgTwoPanes 1 true).1 (by decide)⟩,
    ⟨by decide, (C5_pane_removal cfgTwoPanes 1 true).2 (by decide)⟩⟩

/-- C6: every transition of both editor flows preserves the invariant: the
panes sequence never becomes empty, and pane 0's split value is unchanged by
every transition (in particular pane 0, which starts with no split, never
gains one, and is never the removed pane). -/
theorem C6_editor_invariant (c : Config) (a : CreateAction) (a' : EditAction)
    (h : c.panes ≠ []) :
    ((createStep c a).panes ≠ [] ∧
      ((createStep c a).panes.head?).map Pane.split
        = (c.panes.head?).map Pane.split) ∧
    ((editStep c a').panes ≠ [] ∧
      ((editStep c a').panes.head?).map Pane.split
        = (c.panes.head?).map Pane.split) :=
  ⟨⟨ne_nil_of_head?_split h (createStep_head_split c a h),
      createStep_head_split c a h⟩,
    ⟨ne_nil_of_head?_split h (editStep_head_split c a' h),
      editStep_head_split c a' h⟩⟩

/-- Witness for C6 on the two-pane layout, with a removal action in each
flow. -/
theorem C6_editor_invariant_witness :
    cfgTwoPanes.panes ≠ [] ∧
    (((createStep cfgTwoPanes CreateAction.removePane).panes ≠ [] ∧
        ((createStep cfgTwoPanes CreateAction.removePane).panes.head?).map
            Pane.split
          = (cfgTwoPanes.panes.head?).map Pane.split) ∧
      ((editStep cfgTwoPanes (EditAction.removePane 1 true)).panes ≠ [] ∧
        ((editStep cfgTwoPanes (EditAction.removePane 1 true)).panes.head?).map
            Pane.split
          = (cfgTwoPanes.panes.head?).map Pane.split)) :=
  ⟨by decide,
    C6_editor_invariant cfgTwoPanes CreateAction.removePane
      (EditAction.removePane 1 true) (by decide)⟩

end Tx
